import Mathlib

/-!
Verification of the clip-size analysis utility (`analyze_clip_sizes.py`).

The script scans a directory of MP4 files, builds one record per readable file
(file size, duration, fps, resolution, audio presence, plus derived metrics),
prints aggregate statistics, groups records by resolution / rounded fps / audio
presence, fences bytes-per-second outliers with an interquartile-range rule and
compares the high-outlier population against the normal population.

The embedding below models the numeric core over `ℚ` (Python floats become exact
rationals), models Python exceptions with `Except`, and models the `None` return
of the top-level function with `Option`.
-/

namespace ClipAnalysis

/-- The Python exceptions the analysis script can propagate: `statistics.StatisticsError`
(raised by `statistics.quantiles` on fewer than two data points and by
`statistics.mean` on an empty sample) and `ZeroDivisionError` (raised by an
unguarded `/` with a zero denominator). -/
inductive PyError where
  | statisticsError
  | zeroDivisionError
deriving DecidableEq, Repr

/-- Sequencing of fallible Python expressions: an exception propagates, otherwise
the continuation runs on the value. -/
def exBind {α β : Type} (e : Except PyError α) (f : α → Except PyError β) :
    Except PyError β :=
  match e with
  | .error err => .error err
  | .ok a => f a

/-- Python `sorted` on a list of numbers.  Any sorting algorithm yields the same
value list, so the insertion sort from Mathlib is used. -/
def pySorted (l : List ℚ) : List ℚ :=
  List.insertionSort (fun a b => a ≤ b) l

/-- Python `statistics.mean`: the arithmetic mean, raising `StatisticsError` on an
empty sample. -/
def pymean (l : List ℚ) : Except PyError ℚ :=
  if l.isEmpty then .error .statisticsError
  else .ok (l.sum / (l.length : ℚ))

/-- Python `/` on numbers: raises `ZeroDivisionError` on a zero denominator. -/
def pydiv (a b : ℚ) : Except PyError ℚ :=
  if b = 0 then .error .zeroDivisionError
  else .ok (a / b)

/-- One interpolated cut point of CPython `statistics.quantiles` with `n = 4` and the
default `method="exclusive"`, applied to the sorted sample `s`: with `ld = len(s)`
and `m = ld + 1`, the index is `j = i*m // 4` clamped to `[1, ld-1]`, the exact
scaled offset is `delta = i*m - j*4`, and the cut point is
`(s[j-1]*(4-delta) + s[j]*delta) / 4`. -/
def quantilePoint (s : List ℚ) (i : ℕ) : ℚ :=
  let ld := s.length
  let m := ld + 1
  let j0 := i * m / 4
  let j := if j0 < 1 then 1 else if ld - 1 < j0 then ld - 1 else j0
  let delta : ℤ := (i * m : ℤ) - (j * 4 : ℤ)
  (s.getD (j - 1) 0 * ((4 : ℚ) - (delta : ℚ)) + s.getD j 0 * (delta : ℚ)) / 4

/-- `statistics.quantiles(data, n=4)` as called on lines 217-218 of the source: sorts
the data, raises `StatisticsError` when there are fewer than two data points, and
otherwise returns the three exclusive-method cut points `[Q1, Q2, Q3]`. -/
def quantiles4 (data : List ℚ) : Except PyError (List ℚ) :=
  if data.length < 2 then .error .statisticsError
  else
    let s := pySorted data
    .ok [quantilePoint s 1, quantilePoint s 2, quantilePoint s 3]

/-- Modelled from the spec sentence of C2: one cut point of the "inclusive" quartile
method, where the minimum and maximum are treated as the 0th and 4th quartile: with
`m = ld - 1`, `j = i*m // 4` and `delta = i*m % 4`, the cut point is
`(s[j]*(4-delta) + s[j+1]*delta) / 4`. -/
def quantilePointInclusive (s : List ℚ) (i : ℕ) : ℚ :=
  let ld := s.length
  let m := ld - 1
  let j := i * m / 4
  let delta := i * m % 4
  (s.getD j 0 * ((4 : ℚ) - (delta : ℚ)) + s.getD (j + 1) 0 * (delta : ℚ)) / 4

/-- Modelled from the spec sentence of C2: the quartile computation the claim asserts,
namely the inclusive 4-quantile split of the sorted sample. -/
def quantiles4Inclusive (data : List ℚ) : Except PyError (List ℚ) :=
  if data.length < 2 then .error .statisticsError
  else
    let s := pySorted data
    .ok [quantilePointInclusive s 1, quantilePointInclusive s 2,
      quantilePointInclusive s 3]

/-- The exclusive method stated as interpolation at a rational position (the amended
form of C2): the i-th cut point interpolates the order statistics bracketing the
rational position `i*(ld+1)/4`, with the upper bracketing index clamped to
`[1, ld-1]`, so the sample endpoints are never themselves cut positions. -/
def quantilePointPos (s : List ℚ) (i : ℕ) : ℚ :=
  let ld := s.length
  let p : ℚ := ((i * (ld + 1) : ℕ) : ℚ) / 4
  let j : ℕ := max 1 (min (⌊p⌋₊) (ld - 1))
  let g : ℚ := p - (j : ℚ)
  s.getD (j - 1) 0 * (1 - g) + s.getD j 0 * g

theorem quantilePoint_eq_pos (s : List ℚ) (i : ℕ) (h : 2 ≤ s.length) :
    quantilePoint s i = quantilePointPos s i := by
  unfold quantilePoint quantilePointPos
  have hfloor : ⌊((i * (s.length + 1) : ℕ) : ℚ) / 4⌋₊ = i * (s.length + 1) / 4 := by
    have h4 : ((4 : ℕ) : ℚ) = (4 : ℚ) := by norm_num
    rw [← h4, Nat.floor_div_nat, Nat.floor_natCast]
  simp only [hfloor]
  have hj : (if i * (s.length + 1) / 4 < 1 then 1
      else if s.length - 1 < i * (s.length + 1) / 4 then s.length - 1
      else i * (s.length + 1) / 4)
      = max 1 (min (i * (s.length + 1) / 4) (s.length - 1)) := by
    split_ifs with h1 h2
    · omega
    · omega
    · omega
  rw [hj]
  set j : ℕ := max 1 (min (i * (s.length + 1) / 4) (s.length - 1)) with hjdef
  clear_value j
  push_cast
  ring

/-- Whichever sorting algorithm models Python `sorted`, the length is preserved. -/
theorem pySorted_length (l : List ℚ) : (pySorted l).length = l.length :=
  List.length_insertionSort _ l

/-- The metadata the moviepy collaborator reports for one readable file (lines 35-38):
`clip.duration`, `clip.fps` (a float or `None`), `clip.size` (a pair, or `None` when
unknown) and whether `clip.audio` is present. -/
structure Meta where
  duration : ℚ
  fps : Option ℚ
  resolution : Option (ℕ × ℕ)
  hasAudio : Bool
deriving DecidableEq, Repr

/-- Python truthiness of the `fps` value used by `if c['fps']` and
`... if fps else 0`: `None` and `0.0` are falsy. -/
def fpsTruthy : Option ℚ → Bool
  | none => false
  | some f => decide (f ≠ 0)

/-- The numeric value behind a truthy `fps`. -/
def fpsVal : Option ℚ → ℚ
  | none => 0
  | some f => f

/-- One entry of `clips_data` (lines 46-59), with the derived metrics of lines 41-44. -/
structure ClipRecord where
  filename : String
  file_size : ℕ
  duration : ℚ
  fps : Option ℚ
  width : ℕ
  height : ℕ
  resolution : Option (ℕ × ℕ)
  has_audio : Bool
  bitrate : ℚ
  bytes_per_second : ℚ
  pixels_per_frame : ℕ
  total_frames : ℚ
deriving DecidableEq, Repr

/-- Lines 41-59: build the `clips_data` entry for one successfully opened file.  The
`resolution` field models the string `f"{w}x{h}"` (or `"Unknown"` when the size is
falsy) through the injective encoding `some (w, h)` / `none`. -/
def buildRecord (filename : String) (file_size : ℕ) (m : Meta) : ClipRecord :=
  { filename := filename
    file_size := file_size
    duration := m.duration
    fps := m.fps
    width := (m.resolution.getD (0, 0)).1
    height := (m.resolution.getD (0, 0)).2
    resolution := m.resolution
    has_audio := m.hasAudio
    bitrate := if 0 < m.duration then ((file_size : ℚ) * 8) / m.duration else 0
    bytes_per_second := if 0 < m.duration then (file_size : ℚ) / m.duration else 0
    pixels_per_frame := match m.resolution with
      | some (w, h) => w * h
      | none => 0
    total_frames := if fpsTruthy m.fps then m.duration * fpsVal m.fps else 0 }

/-- Python `round` on a number: round half to even — below the midpoint round down,
above it round up, and at the midpoint round to the even neighbour. -/
def pyround (x : ℚ) : ℤ :=
  if x - (⌊x⌋ : ℚ) < 1 / 2 then ⌊x⌋
  else if 1 / 2 < x - (⌊x⌋ : ℚ) then ⌊x⌋ + 1
  else if ⌊x⌋ % 2 = 0 then ⌊x⌋ else ⌊x⌋ + 1

/-- Line 217-221: the IQR fence, `lower_bound = q1 - 1.5 * (q3 - q1)`. -/
def lowerBound (q1 q3 : ℚ) : ℚ :=
  q1 - 3 / 2 * (q3 - q1)

/-- Line 217-221: the IQR fence, `upper_bound = q3 + 1.5 * (q3 - q1)`. -/
def upperBound (q1 q3 : ℚ) : ℚ :=
  q3 + 3 / 2 * (q3 - q1)

/-- Line 222: membership in the `outliers` comprehension. -/
def isOutlier (lb ub bps : ℚ) : Bool :=
  decide (bps < lb) || decide (ub < bps)

/-- Line 229: membership in `high_outliers`. -/
def isHighOutlier (ub bps : ℚ) : Bool :=
  decide (ub < bps)

/-- Line 230: membership in `low_outliers`. -/
def isLowOutlier (lb bps : ℚ) : Bool :=
  decide (bps < lb)

/-- Line 257: membership in `normal_clips`. -/
def isNormalClip (lb ub bps : ℚ) : Bool :=
  decide (lb ≤ bps) && decide (bps ≤ ub)

/-- The tag the spec's OutlierClassification assigns to one record. -/
inductive Tag where
  | low
  | high
  | normal
deriving DecidableEq, Repr

/-- The classification the script's comprehensions induce on one record: a record lands
in `low_outliers` when its bytes-per-second is below the lower fence, in
`high_outliers` when above the upper fence, and otherwise in neither outlier list. -/
def classify (lb ub bps : ℚ) : Tag :=
  if isLowOutlier lb bps then Tag.low
  else if isHighOutlier ub bps then Tag.high
  else Tag.normal

/-- One step of the grouping loops (lines 157-162, 171-176): append the sample `v` to
the group keyed `k`, creating the group at the end when the key is new — exactly the
insertion-ordered behaviour of a Python dict. -/
def addSample {κ : Type} [DecidableEq κ] (gs : List (κ × List ℚ)) (k : κ) (v : ℚ) :
    List (κ × List ℚ) :=
  match gs with
  | [] => [(k, [v])]
  | (k0, vs) :: rest =>
    if k0 = k then (k0, vs ++ [v]) :: rest
    else (k0, vs) :: addSample rest k v

/-- The grouping loops: fold the records in order, sending each record's
`bytes_per_second` to the group of its key. -/
def groupBy {κ : Type} [DecidableEq κ] (key : ClipRecord → κ)
    (records : List ClipRecord) : List (κ × List ℚ) :=
  records.foldl (fun gs c => addSample gs (key c) c.bytes_per_second) []

/-- Line 159: the resolution grouping key (`c['resolution']`). -/
def resKey (c : ClipRecord) : Option (ℕ × ℕ) :=
  c.resolution

/-- Line 173: `fps_rounded = round(c['fps']) if c['fps'] else 0`. -/
def fpsKey (c : ClipRecord) : ℤ :=
  if fpsTruthy c.fps then pyround (fpsVal c.fps) else 0

/-- Lines 186-190: the audio-presence grouping key. -/
def audioKey (c : ClipRecord) : Bool :=
  c.has_audio

/-- Lines 165 and 179: `sorted(groups.items(), key=lambda x: len(x[1]), reverse=True)`.
Python's sort is stable and `reverse=True` keeps ties in insertion order, which is the
behaviour of a stable merge sort under the flipped comparison. -/
def sortGroupsByCountDesc {κ : Type} (gs : List (κ × List ℚ)) : List (κ × List ℚ) :=
  gs.mergeSort (fun a b => decide (b.2.length ≤ a.2.length))

/-- Lines 165-168: the resolution groups whose statistics are printed, in display
order — the sorted group list filtered by `len(bps_list) >= 3`. -/
def displayedResGroups (records : List ClipRecord) : List (Option (ℕ × ℕ) × List ℚ) :=
  (sortGroupsByCountDesc (groupBy resKey records)).filter
    (fun g => decide (3 ≤ g.2.length))

/-- Lines 179-182: the fps groups whose statistics are printed, in display order — the
sorted group list filtered by `len(bps_list) >= 3 and fps > 0`. -/
def displayedFpsGroups (records : List ClipRecord) : List (ℤ × List ℚ) :=
  (sortGroupsByCountDesc (groupBy fpsKey records)).filter
    (fun g => decide (3 ≤ g.2.length) && decide (0 < g.1))

/-- The kinds of per-field findings lines 322-330 can surface.  `duration` is a tracked
comparison field (lines 293-299) and appears here so that its absence from the
findings list is expressible. -/
inductive Finding where
  | fps
  | bitrate
  | resolution
  | audioPresence
  | duration
deriving DecidableEq, Repr

/-- Lines 320-330: the `findings` list, built only when `normal_clips` is non-empty.
The four checks run in source order; the duration comparison of lines 293-299 is
never consulted here. -/
def keyFindings (hFps nFps hBr nBr hPx nPx hAud nAud : ℚ) : List Finding :=
  (if 10 < |(hFps / nFps - 1) * 100| then [Finding.fps] else []) ++
    (if 10 < |(hBr / nBr - 1) * 100| then [Finding.bitrate] else []) ++
    (if 10 < |(hPx / nPx - 1) * 100| then [Finding.resolution] else []) ++
    (if 20 < |hAud - nAud| then [Finding.audioPresence] else [])

/-- The values the high-outliers-versus-normal-clips comparison of lines 256-337
computes.  A percent difference is `none` when the normal group is empty and the
corresponding division is skipped. -/
structure ClassComparison where
  cls : Tag
  highAvgFps : ℚ
  normalAvgFps : ℚ
  fpsPctDiff : Option ℚ
  highAvgBitrate : ℚ
  normalAvgBitrate : ℚ
  bitratePctDiff : Option ℚ
  highAvgDuration : ℚ
  normalAvgDuration : ℚ
  durationPctDiff : Option ℚ
  highAudioPct : ℚ
  normalAudioPct : ℚ
  highAvgPixels : ℚ
  normalAvgPixels : ℚ
  pixelsPctDiff : Option ℚ
  findings : List Finding
deriving DecidableEq, Repr

/-- Lines 274-337 in execution order: the means, percent differences and findings of
the high-outlier comparison, with every division that Python performs unguarded
modelled by `pymean`/`pydiv` so that the raising behaviour is preserved. -/
def highOutlierComparison (high normal : List ClipRecord) :
    Except PyError ClassComparison :=
  exBind (pymean ((high.filter (fun c => fpsTruthy c.fps)).map
      (fun c => fpsVal c.fps))) fun high_avg_fps =>
  exBind (if normal.isEmpty then .ok 0
      else pymean ((normal.filter (fun c => fpsTruthy c.fps)).map
        (fun c => fpsVal c.fps))) fun normal_avg_fps =>
  exBind (if normal.isEmpty then .ok none
      else exBind (pydiv high_avg_fps normal_avg_fps) fun q =>
        .ok (some ((q - 1) * 100))) fun fpsPctDiff =>
  exBind (pymean (high.map (fun c => c.bitrate))) fun high_avg_bitrate =>
  exBind (if normal.isEmpty then .ok 0
      else pymean (normal.map (fun c => c.bitrate))) fun normal_avg_bitrate =>
  exBind (if normal.isEmpty then .ok none
      else exBind (pydiv high_avg_bitrate normal_avg_bitrate) fun q =>
        .ok (some ((q - 1) * 100))) fun bitratePctDiff =>
  exBind (pymean (high.map (fun c => c.duration))) fun high_avg_duration =>
  exBind (if normal.isEmpty then .ok 0
      else pymean (normal.map (fun c => c.duration))) fun normal_avg_duration =>
  exBind (if normal.isEmpty then .ok none
      else exBind (pydiv high_avg_duration normal_avg_duration) fun q =>
        .ok (some ((q - 1) * 100))) fun durationPctDiff =>
  exBind (exBind (pydiv ((high.filter (fun c => c.has_audio)).length : ℚ)
      (high.length : ℚ)) fun q => .ok (q * 100)) fun high_audio_pct =>
  exBind (if normal.isEmpty then .ok 0
      else exBind (pydiv ((normal.filter (fun c => c.has_audio)).length : ℚ)
        (normal.length : ℚ)) fun q => .ok (q * 100)) fun normal_audio_pct =>
  exBind (pymean (high.map (fun c => (c.pixels_per_frame : ℚ)))) fun high_avg_pixels =>
  exBind (if normal.isEmpty then .ok 0
      else pymean (normal.map (fun c => (c.pixels_per_frame : ℚ)))) fun
        normal_avg_pixels =>
  exBind (if normal.isEmpty then .ok none
      else exBind (pydiv high_avg_pixels normal_avg_pixels) fun q =>
        .ok (some ((q - 1) * 100))) fun pixelsPctDiff =>
  .ok
    { cls := Tag.high
      highAvgFps := high_avg_fps
      normalAvgFps := normal_avg_fps
      fpsPctDiff := fpsPctDiff
      highAvgBitrate := high_avg_bitrate
      normalAvgBitrate := normal_avg_bitrate
      bitratePctDiff := bitratePctDiff
      highAvgDuration := high_avg_duration
      normalAvgDuration := normal_avg_duration
      durationPctDiff := durationPctDiff
      highAudioPct := high_audio_pct
      normalAudioPct := normal_audio_pct
      highAvgPixels := high_avg_pixels
      normalAvgPixels := normal_avg_pixels
      pixelsPctDiff := pixelsPctDiff
      findings := if normal.isEmpty then []
        else keyFindings high_avg_fps normal_avg_fps high_avg_bitrate
          normal_avg_bitrate high_avg_pixels normal_avg_pixels high_audio_pct
          normal_audio_pct }

/-- Lines 222-230 and 252-337: the outlier section.  When no record is an outlier the
script prints the all-clear and computes nothing (`none`); when outliers exist, the
comparison block runs only under `if high_outliers:` — the low-outlier class is
listed (lines 242-250) but never compared. -/
def outlierDiagnostics (records : List ClipRecord) (lb ub : ℚ) :
    Except PyError (Option ClassComparison) :=
  let outliers := records.filter (fun c => isOutlier lb ub c.bytes_per_second)
  if outliers.isEmpty then .ok none
  else
    let high_outliers := outliers.filter (fun c => isHighOutlier ub c.bytes_per_second)
    if high_outliers.isEmpty then .ok none
    else
      let normal_clips := records.filter
        (fun c => isNormalClip lb ub c.bytes_per_second)
      exBind (highOutlierComparison high_outliers normal_clips) fun comp =>
        .ok (some comp)

/-- Lines 217-221: the fence bounds of the run, from the quantiles of the full
`bytes_per_second` sample (the script calls `statistics.quantiles` twice and reads
entries 0 and 2). -/
def analysisBounds (records : List ClipRecord) : Except PyError (ℚ × ℚ) :=
  let bytes_per_sec := records.map (fun c => c.bytes_per_second)
  exBind (quantiles4 bytes_per_sec) fun qs1 =>
  exBind (quantiles4 bytes_per_sec) fun qs3 =>
  let q1 := qs1.getD 0 0
  let q3 := qs3.getD 2 0
  .ok (lowerBound q1 q3, upperBound q1 q3)

/-- The per-file outcome of the scan loop (lines 28-70): extraction either raises
(the file joins the `errors` list) or yields a size and metadata. -/
inductive FileResult where
  | failure
  | success (filename : String) (size : ℕ) (m : Meta)
deriving DecidableEq, Repr

/-- The `clips_data` list the scan loop builds: one record per successful file, in
enumeration order; failed files contribute nothing. -/
def buildRecords (files : List FileResult) : List ClipRecord :=
  files.filterMap (fun f =>
    match f with
    | .failure => none
    | .success filename size m => some (buildRecord filename size m))

/-- The whole of `analyze_clips_advanced` reduced to its value-level behaviour:
`Except` models an uncaught exception, the `Option` models returning `None` versus
returning `clips_data` (line 351).  The sections between line 76 and line 214 only
compute guarded statistics of non-empty samples and cannot raise; the raising
operations are the quantile calls (lines 217-218) and the outlier comparison. -/
def analyzeClipsAdvanced (dirExists : Bool) (files : List FileResult) :
    Except PyError (Option (List ClipRecord)) :=
  if !dirExists then .ok none
  else if files.isEmpty then .ok none
  else
    let clips_data := buildRecords files
    if clips_data.isEmpty then .ok none
    else
      exBind (analysisBounds clips_data) fun bounds =>
      exBind (outlierDiagnostics clips_data bounds.1 bounds.2) fun _ =>
      .ok (some clips_data)

/-- C1: the outlier detector uses the fences `Q1 - 1.5*(Q3 - Q1)` and
`Q3 + 1.5*(Q3 - Q1)`, classifies a record as a low outlier exactly when its
bytes-per-second is below the lower fence, as a high outlier exactly when above the
upper fence, and as normal otherwise — values equal to a bound land in the
`normal_clips` population of line 257; with `Q1 = 10`, `Q3 = 30` the bounds are `-20`
and `60`, and `65` is high, `45` is normal, `-25` is low. -/
theorem outlier_fence_classification (q1 q3 bps : ℚ) (h : q1 ≤ q3) :
    lowerBound q1 q3 = q1 - 3 / 2 * (q3 - q1) ∧
    upperBound q1 q3 = q3 + 3 / 2 * (q3 - q1) ∧
    (classify (lowerBound q1 q3) (upperBound q1 q3) bps = Tag.low ↔
      bps < lowerBound q1 q3) ∧
    (classify (lowerBound q1 q3) (upperBound q1 q3) bps = Tag.high ↔
      upperBound q1 q3 < bps) ∧
    (classify (lowerBound q1 q3) (upperBound q1 q3) bps = Tag.normal ↔
      (lowerBound q1 q3 ≤ bps ∧ bps ≤ upperBound q1 q3)) ∧
    (classify (lowerBound q1 q3) (upperBound q1 q3) bps = Tag.normal ↔
      isNormalClip (lowerBound q1 q3) (upperBound q1 q3) bps = true) ∧
    lowerBound 10 30 = -20 ∧ upperBound 10 30 = 60 ∧
    classify (lowerBound 10 30) (upperBound 10 30) 65 = Tag.high ∧
    classify (lowerBound 10 30) (upperBound 10 30) 45 = Tag.normal ∧
    classify (lowerBound 10 30) (upperBound 10 30) (-25) = Tag.low := by
  have hbounds : lowerBound q1 q3 ≤ upperBound q1 q3 := by
    unfold lowerBound upperBound
    linarith
  have hlow : classify (lowerBound q1 q3) (upperBound q1 q3) bps = Tag.low ↔
      bps < lowerBound q1 q3 := by
    simp only [classify, isLowOutlier, isHighOutlier, decide_eq_true_eq]
    split_ifs with h1 h2
    · simp [h1]
    · simp [h1]
    · simp [h1]
  have hhigh : classify (lowerBound q1 q3) (upperBound q1 q3) bps = Tag.high ↔
      upperBound q1 q3 < bps := by
    simp only [classify, isLowOutlier, isHighOutlier, decide_eq_true_eq]
    split_ifs with h1 h2
    · exact iff_of_false (by simp) (by intro hc; linarith)
    · exact iff_of_true rfl h2
    · exact iff_of_false (by simp) h2
  have hnorm : classify (lowerBound q1 q3) (upperBound q1 q3) bps = Tag.normal ↔
      (lowerBound q1 q3 ≤ bps ∧ bps ≤ upperBound q1 q3) := by
    simp only [classify, isLowOutlier, isHighOutlier, decide_eq_true_eq]
    split_ifs with h1 h2
    · exact iff_of_false (by simp) (fun hc => absurd hc.1 (not_le.mpr h1))
    · exact iff_of_false (by simp) (fun hc => absurd h2 (not_lt.mpr hc.2))
    · exact iff_of_true rfl ⟨le_of_not_lt h1, le_of_not_lt h2⟩
  refine ⟨rfl, rfl, hlow, hhigh, hnorm, ?_, by norm_num [lowerBound],
    by norm_num [upperBound], ?_, ?_, ?_⟩
  · rw [hnorm]
    simp [isNormalClip]
  · norm_num [classify, isLowOutlier, isHighOutlier, lowerBound, upperBound]
  · norm_num [classify, isLowOutlier, isHighOutlier, lowerBound, upperBound]
  · norm_num [classify, isLowOutlier, isHighOutlier, lowerBound, upperBound]

/-- Witness for C1 at the spec's own instance `Q1 = 10`, `Q3 = 30`, `bps = 65`. -/
theorem outlier_fence_classification_witness :
    classify (lowerBound 10 30) (upperBound 10 30) 65 = Tag.high :=
  (outlier_fence_classification 10 30 65 (by norm_num)).2.2.2.2.2.2.2.2.1

/-- C2 counterexample: on the sample `[1, 2, 3, 4]` the script's quantile call (the
CPython default, exclusive method) yields `Q1 = 5/4`, while the inclusive method the
claim asserts yields `Q1 = 7/4` — the code does not use the inclusive method. -/
theorem quartile_method_counterexample :
    quantiles4 [1, 2, 3, 4] = .ok [5 / 4, 5 / 2, 15 / 4] ∧
    quantiles4Inclusive [1, 2, 3, 4] = .ok [7 / 4, 5 / 2, 13 / 4] ∧
    ((5 : ℚ) / 4) ≠ ((7 : ℚ) / 4) := by
  refine ⟨?_, ?_, by norm_num⟩ <;>
    norm_num [quantiles4, quantiles4Inclusive, pySorted, List.insertionSort,
      List.orderedInsert, quantilePoint, quantilePointInclusive]

/-- C2 (amended): `Q1` and `Q3` come from the exclusive quartile method — the default
of `statistics.quantiles` — which linearly interpolates adjacent order statistics of
the sorted sample around the rational position `i*(len+1)/4`, with the bracketing
index clamped to `[1, len-1]`, so the sample endpoints are not treated as the 0th and
4th quartile. -/
theorem quantiles_exclusive_method (data : List ℚ) (h : 2 ≤ data.length) :
    quantiles4 data = .ok [quantilePointPos (pySorted data) 1,
      quantilePointPos (pySorted data) 2, quantilePointPos (pySorted data) 3] := by
  have hlen : 2 ≤ (pySorted data).length := by
    rw [pySorted_length]
    exact h
  unfold quantiles4
  rw [if_neg (by omega)]
  simp only [quantilePoint_eq_pos _ _ hlen]

/-- Witness for C2 (amended) on the sample `[1, 2, 3, 4]`. -/
theorem quantiles_exclusive_method_witness :
    quantiles4 [1, 2, 3, 4] = .ok [quantilePointPos (pySorted [1, 2, 3, 4]) 1,
      quantilePointPos (pySorted [1, 2, 3, 4]) 2,
      quantilePointPos (pySorted [1, 2, 3, 4]) 3] :=
  quantiles_exclusive_method [1, 2, 3, 4] (by norm_num)

/-- C3 counterexample: with only three successfully analyzed records the
outlier-detection step does not fail fast — `statistics.quantiles` silently computes
interpolated quartiles on the tiny sample. -/
theorem small_sample_no_failfast :
    ([10, 20, 30] : List ℚ).length < 4 ∧
    quantiles4 [10, 20, 30] = .ok [10, 20, 30] := by
  refine ⟨by norm_num, ?_⟩
  norm_num [quantiles4, pySorted, List.insertionSort, List.orderedInsert,
    quantilePoint]

/-- C3 (amended): the quantile step raises (`StatisticsError`, with the diagnostic
"must have at least two data points") exactly when fewer than two records were
analyzed; for two or three records it silently computes interpolated fence bounds
rather than failing fast. -/
theorem quantiles_failure_iff (data : List ℚ) :
    (quantiles4 data = .error .statisticsError ↔ data.length < 2) ∧
    ((∃ qs, quantiles4 data = .ok qs) ↔ 2 ≤ data.length) := by
  unfold quantiles4
  split_ifs with h
  · simp [h]
  · simp
    omega

/-- C4 counterexample: a zero-byte file with positive duration builds a record whose
`bytes_per_second` and `bitrate` are both `0` even though `duration_seconds ≠ 0`,
contradicting "both are nonzero whenever duration is positive, for any file size". -/
theorem zero_size_record_counterexample :
    (buildRecord "a.mp4" 0 ⟨1, some 30, some (1920, 1080), true⟩).duration = 1 ∧
    (buildRecord "a.mp4" 0 ⟨1, some 30, some (1920, 1080), true⟩).bytes_per_second
      = 0 ∧
    (buildRecord "a.mp4" 0 ⟨1, some 30, some (1920, 1080), true⟩).bitrate = 0 := by
  refine ⟨rfl, ?_, ?_⟩ <;> norm_num [buildRecord]

/-- C4 (amended): for a record built from a non-negative duration, the derived
`bytes_per_second` and `bitrate` are `0` exactly when the duration is `0` or the file
size is `0`; both are nonzero whenever the duration and the file size are positive. -/
theorem derived_metrics_zero_iff (filename : String) (size : ℕ) (m : Meta)
    (h : 0 ≤ m.duration) :
    ((buildRecord filename size m).bytes_per_second = 0 ↔
      (m.duration = 0 ∨ size = 0)) ∧
    ((buildRecord filename size m).bitrate = 0 ↔ (m.duration = 0 ∨ size = 0)) := by
  unfold buildRecord
  simp only
  constructor
  · split_ifs with hd
    · rw [div_eq_zero_iff]
      simp only [Nat.cast_eq_zero (R := ℚ)]
      constructor
      · rintro (hs | hdz)
        · exact Or.inr hs
        · exact absurd hdz (ne_of_gt hd)
      · rintro (hdz | hs)
        · exact absurd hdz (ne_of_gt hd)
        · exact Or.inl hs
    · have hz : m.duration = 0 := le_antisymm (not_lt.mp hd) h
      simp [hz]
  · split_ifs with hd
    · rw [div_eq_zero_iff, mul_eq_zero]
      simp only [Nat.cast_eq_zero (R := ℚ)]
      constructor
      · rintro ((hs | h8) | hdz)
        · exact Or.inr hs
        · exact absurd h8 (by norm_num)
        · exact absurd hdz (ne_of_gt hd)
      · rintro (hdz | hs)
        · exact absurd hdz (ne_of_gt hd)
        · exact Or.inl (Or.inl hs)
    · have hz : m.duration = 0 := le_antisymm (not_lt.mp hd) h
      simp [hz]

/-- Witness for C4 (amended): a zero-duration record has `bytes_per_second = 0`. -/
theorem derived_metrics_zero_iff_witness :
    (buildRecord "b.mp4" 5 ⟨0, some 30, some (1920, 1080), true⟩).bytes_per_second
      = 0 :=
  (derived_metrics_zero_iff "b.mp4" 5 ⟨0, some 30, some (1920, 1080), true⟩
    (by norm_num)).1.mpr (Or.inl rfl)

theorem addSample_sum_lengths {κ : Type} [DecidableEq κ] (gs : List (κ × List ℚ))
    (k : κ) (v : ℚ) :
    ((addSample gs k v).map (fun g => g.2.length)).sum
      = ((gs.map (fun g => g.2.length)).sum) + 1 := by
  induction gs with
  | nil => simp [addSample]
  | cons g rest ih =>
    obtain ⟨k0, vs⟩ := g
    by_cases hk : k0 = k
    · simp only [addSample, if_pos hk, List.map_cons, List.sum_cons,
        List.length_append, List.length_cons, List.length_nil]
      omega
    · simp only [addSample, if_neg hk, List.map_cons, List.sum_cons, ih]
      omega

theorem addSample_keys_mem {κ : Type} [DecidableEq κ] (gs : List (κ × List ℚ))
    (k : κ) (v : ℚ) (k1 : κ) :
    k1 ∈ (addSample gs k v).map (fun g => g.1)
      ↔ k1 ∈ gs.map (fun g => g.1) ∨ k1 = k := by
  induction gs with
  | nil => simp [addSample]
  | cons g rest ih =>
    obtain ⟨k0, vs⟩ := g
    by_cases hk : k0 = k
    · subst hk
      simp [addSample]
      tauto
    · simp [addSample, hk, ih]
      tauto

theorem addSample_keys_nodup {κ : Type} [DecidableEq κ] (gs : List (κ × List ℚ))
    (k : κ) (v : ℚ) (h : (gs.map (fun g => g.1)).Nodup) :
    ((addSample gs k v).map (fun g => g.1)).Nodup := by
  induction gs with
  | nil => simp [addSample]
  | cons g rest ih =>
    obtain ⟨k0, vs⟩ := g
    simp only [List.map_cons, List.nodup_cons] at h
    by_cases hk : k0 = k
    · simp only [addSample, if_pos hk, List.map_cons, List.nodup_cons]
      exact h
    · simp only [addSample, if_neg hk, List.map_cons, List.nodup_cons]
      refine ⟨?_, ih h.2⟩
      rw [addSample_keys_mem]
      rintro (hmem | heq)
      · exact h.1 hmem
      · exact hk heq

theorem groupBy_foldl_sum_lengths {κ : Type} [DecidableEq κ]
    (key : ClipRecord → κ) (records : List ClipRecord) (gs : List (κ × List ℚ)) :
    (((records.foldl (fun acc c => addSample acc (key c) c.bytes_per_second)
        gs)).map (fun g => g.2.length)).sum
      = (gs.map (fun g => g.2.length)).sum + records.length := by
  induction records generalizing gs with
  | nil => simp
  | cons c rest ih =>
    simp only [List.foldl_cons, List.length_cons, ih, addSample_sum_lengths]
    omega

theorem groupBy_foldl_keys_mem {κ : Type} [DecidableEq κ]
    (key : ClipRecord → κ) (records : List ClipRecord) (gs : List (κ × List ℚ))
    (k1 : κ) :
    k1 ∈ ((records.foldl (fun acc c => addSample acc (key c) c.bytes_per_second)
        gs)).map (fun g => g.1)
      ↔ k1 ∈ gs.map (fun g => g.1) ∨ ∃ c ∈ records, key c = k1 := by
  induction records generalizing gs with
  | nil => simp
  | cons c rest ih =>
    simp only [List.foldl_cons, ih, addSample_keys_mem, List.mem_cons]
    constructor
    · rintro ((hgs | hc) | ⟨c1, hc1, hk1⟩)
      · exact Or.inl hgs
      · exact Or.inr ⟨c, Or.inl rfl, hc.symm⟩
      · exact Or.inr ⟨c1, Or.inr hc1, hk1⟩
    · rintro (hgs | ⟨c1, hc1 | hc1, hk1⟩)
      · exact Or.inl (Or.inl hgs)
      · exact Or.inl (Or.inr (by rw [hc1] at hk1; exact hk1.symm))
      · exact Or.inr ⟨c1, hc1, hk1⟩

theorem groupBy_foldl_keys_nodup {κ : Type} [DecidableEq κ]
    (key : ClipRecord → κ) (records : List ClipRecord) (gs : List (κ × List ℚ))
    (h : (gs.map (fun g => g.1)).Nodup) :
    (((records.foldl (fun acc c => addSample acc (key c) c.bytes_per_second)
        gs)).map (fun g => g.1)).Nodup := by
  induction records generalizing gs with
  | nil => exact h
  | cons c rest ih =>
    simp only [List.foldl_cons]
    exact ih _ (addSample_keys_nodup _ _ _ h)

theorem groupBy_keys_nodup {κ : Type} [DecidableEq κ] (key : ClipRecord → κ)
    (records : List ClipRecord) :
    ((groupBy key records).map (fun g => g.1)).Nodup :=
  groupBy_foldl_keys_nodup key records [] (by simp)

theorem groupBy_keys_mem {κ : Type} [DecidableEq κ] (key : ClipRecord → κ)
    (records : List ClipRecord) (k1 : κ) :
    k1 ∈ (groupBy key records).map (fun g => g.1)
      ↔ ∃ c ∈ records, key c = k1 := by
  unfold groupBy
  rw [groupBy_foldl_keys_mem]
  simp

theorem countP_key_eq_one {κ : Type} [DecidableEq κ] (gs : List (κ × List ℚ))
    (k : κ) (hnd : (gs.map (fun g => g.1)).Nodup)
    (hmem : k ∈ gs.map (fun g => g.1)) :
    gs.countP (fun g => decide (g.1 = k)) = 1 := by
  induction gs with
  | nil => simp at hmem
  | cons g rest ih =>
    simp only [List.map_cons, List.nodup_cons] at hnd
    simp only [List.map_cons, List.mem_cons] at hmem
    rw [List.countP_cons]
    by_cases hk : g.1 = k
    · have hzero : rest.countP (fun g2 => decide (g2.1 = k)) = 0 := by
        rw [List.countP_eq_zero]
        intro g2 hg2
        simp only [decide_eq_true_eq]
        intro heq
        exact hnd.1 (by rw [hk, ← heq]; exact List.mem_map_of_mem _ hg2)
      simp [hzero, hk]
    · rcases hmem with hmem | hmem
      · exact absurd hmem.symm hk
      · simp only [decide_eq_true_eq, hk, if_false]
        exact ih hnd.2 hmem

theorem groupBy_partition {κ : Type} [DecidableEq κ] (key : ClipRecord → κ)
    (records : List ClipRecord) :
    ((groupBy key records).map (fun g => g.2.length)).sum = records.length ∧
    ∀ c ∈ records,
      (groupBy key records).countP (fun g => decide (g.1 = key c)) = 1 := by
  constructor
  · unfold groupBy
    rw [groupBy_foldl_sum_lengths]
    simp
  · intro c hc
    exact countP_key_eq_one _ _ (groupBy_keys_nodup key records)
      ((groupBy_keys_mem key records (key c)).mpr ⟨c, hc, rfl⟩)

/-- C9: for each grouping dimension — resolution, rounded fps (sentinel included) and
audio presence — grouping is a partition: the groups' sample counts sum to the total
record count, and each record's key occurs in exactly one group, the group holding
its `bytes_per_second` sample. -/
theorem grouping_is_partition (records : List ClipRecord) :
    (((groupBy resKey records).map (fun g => g.2.length)).sum = records.length ∧
      ∀ c ∈ records,
        (groupBy resKey records).countP (fun g => decide (g.1 = resKey c)) = 1) ∧
    (((groupBy fpsKey records).map (fun g => g.2.length)).sum = records.length ∧
      ∀ c ∈ records,
        (groupBy fpsKey records).countP (fun g => decide (g.1 = fpsKey c)) = 1) ∧
    (((groupBy audioKey records).map (fun g => g.2.length)).sum = records.length ∧
      ∀ c ∈ records,
        (groupBy audioKey records).countP
          (fun g => decide (g.1 = audioKey c)) = 1) :=
  ⟨groupBy_partition resKey records, groupBy_partition fpsKey records,
    groupBy_partition audioKey records⟩

/-- A concrete record used by witnesses and counterexamples: a 100-byte, 10-second,
30-fps, 1920x1080 clip with audio, whose stored derived metrics are the ones lines
41-44 compute, with the bytes-per-second sample value given by the argument. -/
def sampleRecord (bps : ℚ) : ClipRecord :=
  { filename := "s.mp4"
    file_size := 100
    duration := 10
    fps := some 30
    width := 1920
    height := 1080
    resolution := some (1920, 1080)
    has_audio := true
    bitrate := 80
    bytes_per_second := bps
    pixels_per_frame := 2073600
    total_frames := 300 }

/-- Witness for C9 on a one-record set: the single record's key occurs in exactly one
resolution group. -/
theorem grouping_is_partition_witness :
    (groupBy resKey [sampleRecord 10]).countP
      (fun g => decide (g.1 = resKey (sampleRecord 10))) = 1 :=
  (grouping_is_partition [sampleRecord 10]).1.2 (sampleRecord 10) (by simp)

theorem pyround_nonneg (x : ℚ) (h : 0 ≤ x) : 0 ≤ pyround x := by
  unfold pyround
  have hf : (0 : ℤ) ≤ ⌊x⌋ := Int.floor_nonneg.mpr h
  split_ifs <;> omega

theorem countDesc_trans {κ : Type} (a b c : κ × List ℚ)
    (hab : decide (b.2.length ≤ a.2.length) = true)
    (hbc : decide (c.2.length ≤ b.2.length) = true) :
    decide (c.2.length ≤ a.2.length) = true := by
  simp only [decide_eq_true_eq] at hab hbc ⊢
  omega

theorem countDesc_total {κ : Type} (a b : κ × List ℚ) :
    (decide (b.2.length ≤ a.2.length) || decide (a.2.length ≤ b.2.length)) = true := by
  simp only [Bool.or_eq_true, decide_eq_true_eq]
  omega

theorem mem_sortGroupsByCountDesc {κ : Type} (gs : List (κ × List ℚ))
    (g : κ × List ℚ) : g ∈ sortGroupsByCountDesc gs ↔ g ∈ gs :=
  (List.mergeSort_perm gs _).mem_iff

theorem sorted_sortGroupsByCountDesc {κ : Type} (gs : List (κ × List ℚ)) :
    (sortGroupsByCountDesc gs).Pairwise (fun a b => b.2.length ≤ a.2.length) := by
  have h := @List.sorted_mergeSort (κ × List ℚ)
    (fun a b => decide (b.2.length ≤ a.2.length))
    (fun a b c => countDesc_trans a b c) (fun a b => countDesc_total a b) gs
  exact h.imp (by simp)

theorem sortGroupsByCountDesc_stable {κ : Type} (gs : List (κ × List ℚ))
    (a b : κ × List ℚ) (hsub : [a, b].Sublist gs)
    (heq : a.2.length = b.2.length) :
    [a, b].Sublist (sortGroupsByCountDesc gs) := by
  refine List.sublist_mergeSort (fun x y z => countDesc_trans x y z)
    (fun x y => countDesc_total x y) ?_ hsub
  simp [heq]

/-- C8: for the resolution dimension and the rounded-fps dimension (with every
reported fps non-negative, as moviepy delivers), a group is displayed exactly when it
has at least 3 samples — with the fps sentinel group `0` additionally excluded — and
the displayed groups are ordered by descending sample count with ties kept in
first-encountered key order (the order of the group list itself). -/
theorem group_reporting_policy (records : List ClipRecord)
    (hfps : ∀ c ∈ records, ∀ f, c.fps = some f → 0 ≤ f) :
    (∀ g, g ∈ displayedResGroups records ↔
      g ∈ groupBy resKey records ∧ 3 ≤ g.2.length) ∧
    (displayedResGroups records).Pairwise (fun a b => b.2.length ≤ a.2.length) ∧
    (∀ a b, [a, b].Sublist (groupBy resKey records) → a.2.length = b.2.length →
      3 ≤ a.2.length → 3 ≤ b.2.length →
      [a, b].Sublist (displayedResGroups records)) ∧
    (∀ g, g ∈ displayedFpsGroups records ↔
      g ∈ groupBy fpsKey records ∧ 3 ≤ g.2.length ∧ g.1 ≠ 0) ∧
    (displayedFpsGroups records).Pairwise (fun a b => b.2.length ≤ a.2.length) ∧
    (∀ a b, [a, b].Sublist (groupBy fpsKey records) → a.2.length = b.2.length →
      3 ≤ a.2.length → 3 ≤ b.2.length → 0 < a.1 → 0 < b.1 →
      [a, b].Sublist (displayedFpsGroups records)) := by
  have hkeynn : ∀ g ∈ groupBy fpsKey records, (0 : ℤ) ≤ g.1 := by
    intro g hg
    have hkey : g.1 ∈ (groupBy fpsKey records).map (fun g => g.1) :=
      List.mem_map_of_mem _ hg
    rw [groupBy_keys_mem] at hkey
    obtain ⟨c, hc, hck⟩ := hkey
    rw [← hck]
    unfold fpsKey
    split_ifs with ht
    · cases hf : c.fps with
      | none => simp [fpsTruthy, hf] at ht
      | some f =>
        have h0f : 0 ≤ f := hfps c hc f hf
        simp only [fpsVal, hf]
        exact pyround_nonneg f h0f
    · exact le_refl 0
  refine ⟨?_, ?_, ?_, ?_, ?_, ?_⟩
  · intro g
    unfold displayedResGroups
    rw [List.mem_filter, mem_sortGroupsByCountDesc]
    simp
  · unfold displayedResGroups
    exact List.Pairwise.sublist (List.filter_sublist _) (sorted_sortGroupsByCountDesc _)
  · intro a b hsub heq ha hb
    unfold displayedResGroups
    have h1 : [a, b].Sublist (sortGroupsByCountDesc (groupBy resKey records)) :=
      sortGroupsByCountDesc_stable _ a b hsub heq
    have h2 := h1.filter (fun g => decide (3 ≤ g.2.length))
    rwa [show List.filter (fun g => decide (3 ≤ g.2.length)) [a, b] = [a, b] by
      simp [List.filter, ha, hb]] at h2
  · intro g
    unfold displayedFpsGroups
    rw [List.mem_filter, mem_sortGroupsByCountDesc]
    simp only [Bool.and_eq_true, decide_eq_true_eq]
    constructor
    · rintro ⟨hg, hlen, hpos⟩
      exact ⟨hg, hlen, ne_of_gt hpos⟩
    · rintro ⟨hg, hlen, hne⟩
      exact ⟨hg, hlen, lt_of_le_of_ne (hkeynn g hg) (Ne.symm hne)⟩
  · unfold displayedFpsGroups
    exact List.Pairwise.sublist (List.filter_sublist _) (sorted_sortGroupsByCountDesc _)
  · intro a b hsub heq ha hb hka hkb
    unfold displayedFpsGroups
    have h1 : [a, b].Sublist (sortGroupsByCountDesc (groupBy fpsKey records)) :=
      sortGroupsByCountDesc_stable _ a b hsub heq
    have h2 := h1.filter (fun g => decide (3 ≤ g.2.length) && decide (0 < g.1))
    rwa [show List.filter
        (fun g => decide (3 ≤ g.2.length) && decide (0 < g.1)) [a, b] = [a, b] by
      simp [List.filter, ha, hb, hka, hkb]] at h2

/-- Witness for C8: three identical 1920x1080 records form one displayed resolution
group of three samples. -/
theorem group_reporting_policy_witness :
    (some (1920, 1080), [10, 10, 10]) ∈
      displayedResGroups [sampleRecord 10, sampleRecord 10, sampleRecord 10] := by
  have h := group_reporting_policy
    [sampleRecord 10, sampleRecord 10, sampleRecord 10]
    (by
      intro c hc f hf
      have hcs : c = sampleRecord 10 := by
        simp only [List.mem_cons, List.not_mem_nil, or_false] at hc
        rcases hc with rfl | rfl | rfl <;> rfl
      rw [hcs] at hf
      simp only [sampleRecord, Option.some.injEq] at hf
      rw [← hf]
      norm_num)
  refine (h.1 _).mpr ⟨?_, by norm_num⟩
  simp [groupBy, addSample, resKey, sampleRecord]

/-- Eight concrete records whose bytes-per-second sample is `[0, 10, ..., 10]`: under
the fences of this run the zero record is a low outlier and there is no high
outlier. -/
def lowOnlyRecords : List ClipRecord :=
  [sampleRecord 0, sampleRecord 10, sampleRecord 10, sampleRecord 10,
    sampleRecord 10, sampleRecord 10, sampleRecord 10, sampleRecord 10]

/-- A 20-second high-outlier record: same resolution, fps and audio as
`sampleRecord`, but double duration and a far larger data rate. -/
def highDurationRecord : ClipRecord :=
  { filename := "h.mp4"
    file_size := 10000
    duration := 20
    fps := some 30
    width := 1920
    height := 1080
    resolution := some (1920, 1080)
    has_audio := true
    bitrate := 4000
    bytes_per_second := 500
    pixels_per_frame := 2073600
    total_frames := 600 }

/-- Seven normal 10-second records plus `highDurationRecord`; its duration differs
from the normal mean by +100 percent. -/
def durationSkewRecords : List ClipRecord :=
  [sampleRecord 10, sampleRecord 10, sampleRecord 10, sampleRecord 10,
    sampleRecord 10, sampleRecord 10, sampleRecord 10, highDurationRecord]

/-- The comparison values the script computes on `durationSkewRecords`. -/
def durationComp : ClassComparison :=
  { cls := Tag.high
    highAvgFps := 30
    normalAvgFps := 30
    fpsPctDiff := some 0
    highAvgBitrate := 4000
    normalAvgBitrate := 80
    bitratePctDiff := some 4900
    highAvgDuration := 20
    normalAvgDuration := 10
    durationPctDiff := some 100
    highAudioPct := 100
    normalAudioPct := 100
    highAvgPixels := 2073600
    normalAvgPixels := 2073600
    pixelsPctDiff := some 0
    findings := [Finding.bitrate] }

/-- C6 counterexample: on `lowOnlyRecords` the run's fences are `(10, 10)`, the
low-outlier class is non-empty, yet the script computes no comparative diagnostics at
all — the answer is `none` because the comparison block is gated on high outliers. -/
theorem low_outliers_without_diagnostics :
    analysisBounds lowOnlyRecords = .ok (10, 10) ∧
    (lowOnlyRecords.filter
        (fun c => isOutlier 10 10 c.bytes_per_second)).filter
      (fun c => isLowOutlier 10 c.bytes_per_second) ≠ [] ∧
    outlierDiagnostics lowOnlyRecords 10 10 = .ok none := by
  refine ⟨?_, ?_, ?_⟩
  · norm_num [lowOnlyRecords, analysisBounds, quantiles4, pySorted,
      List.insertionSort, List.orderedInsert, quantilePoint, lowerBound,
      upperBound, exBind, sampleRecord]
  · norm_num [lowOnlyRecords, isOutlier, isLowOutlier, sampleRecord, List.filter]
  · norm_num [lowOnlyRecords, outlierDiagnostics, isOutlier, isHighOutlier,
      sampleRecord, List.filter]

theorem exBind_ok {α β : Type} {e : Except PyError α} {f : α → Except PyError β}
    {b : β} (h : exBind e f = .ok b) : ∃ a, e = .ok a ∧ f a = .ok b := by
  cases e with
  | error err => simp [exBind] at h
  | ok a => exact ⟨a, rfl, h⟩

theorem highOutlierComparison_cls (high normal : List ClipRecord)
    (comp : ClassComparison) (h : highOutlierComparison high normal = .ok comp) :
    comp.cls = Tag.high := by
  unfold highOutlierComparison at h
  obtain ⟨a1, -, h⟩ := exBind_ok h
  obtain ⟨a2, -, h⟩ := exBind_ok h
  obtain ⟨a3, -, h⟩ := exBind_ok h
  obtain ⟨a4, -, h⟩ := exBind_ok h
  obtain ⟨a5, -, h⟩ := exBind_ok h
  obtain ⟨a6, -, h⟩ := exBind_ok h
  obtain ⟨a7, -, h⟩ := exBind_ok h
  obtain ⟨a8, -, h⟩ := exBind_ok h
  obtain ⟨a9, -, h⟩ := exBind_ok h
  obtain ⟨a10, -, h⟩ := exBind_ok h
  obtain ⟨a11, -, h⟩ := exBind_ok h
  obtain ⟨a12, -, h⟩ := exBind_ok h
  obtain ⟨a13, -, h⟩ := exBind_ok h
  obtain ⟨a14, -, h⟩ := exBind_ok h
  injection h with h
  rw [← h]

/-- C6 (amended): when the outlier section runs without raising, comparative
diagnostics exist exactly when the high-outlier class is non-empty, and the only
class ever compared is the high class — the low-outlier class never receives
comparative diagnostics. -/
theorem diagnostics_high_class_only (records : List ClipRecord) (lb ub : ℚ)
    (res : Option ClassComparison)
    (h : outlierDiagnostics records lb ub = .ok res) :
    (res.isSome = true ↔
      (records.filter (fun c => isOutlier lb ub c.bytes_per_second)).filter
        (fun c => isHighOutlier ub c.bytes_per_second) ≠ []) ∧
    (∀ comp, res = some comp → comp.cls = Tag.high) := by
  unfold outlierDiagnostics at h
  by_cases hout :
      (records.filter (fun c => isOutlier lb ub c.bytes_per_second)).isEmpty
  · rw [if_pos hout] at h
    have hres : res = none := by
      injection h with h
      exact h.symm
    subst hres
    constructor
    · simp only [Option.isSome_none, Bool.false_eq_true, false_iff, ne_eq,
        not_not]
      rw [List.isEmpty_iff] at hout
      rw [hout]
      rfl
    · intro comp hcomp
      exact absurd hcomp (by simp)
  · rw [if_neg hout] at h
    by_cases hhigh :
        ((records.filter (fun c => isOutlier lb ub c.bytes_per_second)).filter
          (fun c => isHighOutlier ub c.bytes_per_second)).isEmpty
    · rw [if_pos hhigh] at h
      have hres : res = none := by
        injection h with h
        exact h.symm
      subst hres
      constructor
      · simp only [Option.isSome_none, Bool.false_eq_true, false_iff, ne_eq,
          not_not]
        exact List.isEmpty_iff.mp hhigh
      · intro comp hcomp
        exact absurd hcomp (by simp)
    · rw [if_neg hhigh] at h
      obtain ⟨comp0, hcomp0, h⟩ := exBind_ok h
      have hres : res = some comp0 := by
        injection h with h2
        exact h2.symm
      subst hres
      constructor
      · simp only [Option.isSome_some, true_iff, ne_eq]
        exact fun hnil => (by simp [hnil] at hhigh)
      · intro comp hcomp
        have hcc : comp = comp0 := by
          injection hcomp with h2
          exact h2.symm
        subst hcc
        exact highOutlierComparison_cls _ _ _ hcomp0

/-- Witness for C6 (amended) at the concrete low-outlier-only run. -/
theorem diagnostics_high_class_only_witness :
    (none : Option ClassComparison).isSome = true ↔
      (lowOnlyRecords.filter
          (fun c => isOutlier 10 10 c.bytes_per_second)).filter
        (fun c => isHighOutlier 10 c.bytes_per_second) ≠ [] :=
  (diagnostics_high_class_only lowOnlyRecords 10 10 none
    (by
      norm_num [lowOnlyRecords, outlierDiagnostics, isOutlier, isHighOutlier,
        sampleRecord, List.filter])).1

/-- C7 counterexample: on `durationSkewRecords` the outlier group's mean duration
exceeds the normal group's by 100 percent — far beyond the 10 percent threshold —
yet `duration` is not among the surfaced findings: the script never adds a duration
finding. -/
theorem duration_finding_counterexample :
    analysisBounds durationSkewRecords = .ok (10, 10) ∧
    outlierDiagnostics durationSkewRecords 10 10 = .ok (some durationComp) ∧
    durationComp.durationPctDiff = some 100 ∧
    (10 : ℚ) < |(100 : ℚ)| ∧
    Finding.duration ∉ durationComp.findings := by
  refine ⟨?_, ?_, rfl, by norm_num, by simp [durationComp]⟩
  · norm_num [durationSkewRecords, analysisBounds, quantiles4, pySorted,
      List.insertionSort, List.orderedInsert, quantilePoint, lowerBound,
      upperBound, exBind, sampleRecord, highDurationRecord]
  · norm_num [durationSkewRecords, outlierDiagnostics, highOutlierComparison,
      isOutlier, isHighOutlier, isNormalClip, sampleRecord, highDurationRecord,
      List.filter, exBind, pymean, pydiv, fpsTruthy, fpsVal, keyFindings,
      durationComp]

/-- C7 (amended): with a non-empty normal group whose fps, bitrate and
pixels-per-frame means are nonzero (otherwise the script raises before reaching the
findings), a field is surfaced exactly when its absolute percent difference exceeds
10 — for fps, bitrate and pixels-per-frame only — or, for audio presence, when the
absolute rate difference exceeds 20 points; the duration field is never surfaced. -/
theorem findings_characterization (hFps nFps hBr nBr hPx nPx hAud nAud : ℚ)
    (h1 : nFps ≠ 0) (h2 : nBr ≠ 0) (h3 : nPx ≠ 0) :
    (Finding.fps ∈ keyFindings hFps nFps hBr nBr hPx nPx hAud nAud ↔
      10 < |(hFps / nFps - 1) * 100|) ∧
    (Finding.bitrate ∈ keyFindings hFps nFps hBr nBr hPx nPx hAud nAud ↔
      10 < |(hBr / nBr - 1) * 100|) ∧
    (Finding.resolution ∈ keyFindings hFps nFps hBr nBr hPx nPx hAud nAud ↔
      10 < |(hPx / nPx - 1) * 100|) ∧
    (Finding.audioPresence ∈ keyFindings hFps nFps hBr nBr hPx nPx hAud nAud ↔
      20 < |hAud - nAud|) ∧
    Finding.duration ∉ keyFindings hFps nFps hBr nBr hPx nPx hAud nAud := by
  unfold keyFindings
  split_ifs <;> simp_all [not_lt]

/-- Witness for C7 (amended) at the concrete comparison values of the
duration-skewed run. -/
theorem findings_characterization_witness :
    Finding.bitrate ∈ keyFindings 30 30 4000 80 2073600 2073600 100 100 ↔
      10 < |((4000 : ℚ) / 80 - 1) * 100| :=
  (findings_characterization 30 30 4000 80 2073600 2073600 100 100
    (by norm_num) (by norm_num) (by norm_num)).2.1

/-- A zero-duration file: its record has `bitrate = 0` and `bytes_per_second = 0`. -/
def zeroDurationFile : FileResult :=
  .success "z.mp4" 100 ⟨0, some 30, some (1920, 1080), true⟩

/-- The record `buildRecord` produces for `zeroDurationFile`. -/
def zeroDurationRecord : ClipRecord :=
  { filename := "z.mp4"
    file_size := 100
    duration := 0
    fps := some 30
    width := 1920
    height := 1080
    resolution := some (1920, 1080)
    has_audio := true
    bitrate := 0
    bytes_per_second := 0
    pixels_per_frame := 2073600
    total_frames := 0 }

/-- A 1000-byte one-second file, the lone high outlier of the fault run. -/
def bigFile : FileResult :=
  .success "big.mp4" 1000 ⟨1, some 30, some (1920, 1080), true⟩

/-- The record `buildRecord` produces for `bigFile`. -/
def bigRecord : ClipRecord :=
  { filename := "big.mp4"
    file_size := 1000
    duration := 1
    fps := some 30
    width := 1920
    height := 1080
    resolution := some (1920, 1080)
    has_audio := true
    bitrate := 8000
    bytes_per_second := 1000
    pixels_per_frame := 2073600
    total_frames := 30 }

/-- The failing input for C5: seven zero-duration files and one real file.  The seven
zero-duration records are the normal group and their mean bitrate is 0. -/
def faultFiles : List FileResult :=
  [zeroDurationFile, zeroDurationFile, zeroDurationFile, zeroDurationFile,
    zeroDurationFile, zeroDurationFile, zeroDurationFile, bigFile]

/-- The records `buildRecords` produces for `faultFiles`. -/
def faultRecords : List ClipRecord :=
  [zeroDurationRecord, zeroDurationRecord, zeroDurationRecord, zeroDurationRecord,
    zeroDurationRecord, zeroDurationRecord, zeroDurationRecord, bigRecord]

theorem faultFiles_records : buildRecords faultFiles = faultRecords := by
  norm_num [buildRecords, faultFiles, zeroDurationFile, bigFile, buildRecord,
    faultRecords, zeroDurationRecord, bigRecord, fpsTruthy, fpsVal,
    List.filterMap_cons]

theorem faultRecords_bounds : analysisBounds faultRecords = .ok (0, 0) := by
  norm_num [faultRecords, zeroDurationRecord, bigRecord, analysisBounds,
    quantiles4, pySorted, List.insertionSort, List.orderedInsert, quantilePoint,
    lowerBound, upperBound, exBind]

theorem faultRecords_diagnostics :
    outlierDiagnostics faultRecords 0 0 = .error .zeroDivisionError := by
  norm_num [faultRecords, zeroDurationRecord, bigRecord, outlierDiagnostics,
    highOutlierComparison, isOutlier, isHighOutlier, isNormalClip, List.filter,
    exBind, pymean, pydiv, fpsTruthy, fpsVal, keyFindings]

/-- C5: the percent-difference computations are guarded only by the non-emptiness of
the normal group, not by a zero check of its mean.  On `faultFiles` the normal group
is non-empty with mean bitrate `0`, and the run propagates a `ZeroDivisionError`
from `(high_avg_bitrate/normal_avg_bitrate - 1)*100` instead of reporting a sentinel
— contradicting the spec's guarded-division requirement. -/
theorem percent_diff_division_fault :
    (buildRecords faultFiles).filter
      (fun c => isNormalClip 0 0 c.bytes_per_second) ≠ [] ∧
    pymean (((buildRecords faultFiles).filter
      (fun c => isNormalClip 0 0 c.bytes_per_second)).map (fun c => c.bitrate))
      = .ok 0 ∧
    analyzeClipsAdvanced true faultFiles = .error .zeroDivisionError := by
  refine ⟨?_, ?_, ?_⟩
  · rw [faultFiles_records]
    norm_num [faultRecords, zeroDurationRecord, bigRecord, isNormalClip,
      List.filter]
    exact List.cons_ne_nil _ _
  · rw [faultFiles_records]
    norm_num [faultRecords, zeroDurationRecord, bigRecord, isNormalClip,
      List.filter, pymean]
  · unfold analyzeClipsAdvanced
    rw [faultFiles_records]
    norm_num [show faultFiles.isEmpty = false from rfl,
      show faultRecords.isEmpty = false from rfl, faultRecords_bounds,
      faultRecords_diagnostics, exBind]

/-- A directory scan finding exactly one readable file. -/
def singleGoodFile : List FileResult :=
  [.success "one.mp4" 100 ⟨10, some 30, some (1920, 1080), true⟩]

/-- C10 counterexample: with exactly one successfully analyzed record the analyzer
does not return the record list — `statistics.quantiles` raises `StatisticsError`
("must have at least two data points") and the exception propagates. -/
theorem single_record_raises :
    buildRecords singleGoodFile ≠ [] ∧
    analyzeClipsAdvanced true singleGoodFile = .error .statisticsError := by
  constructor
  · norm_num [buildRecords, singleGoodFile, buildRecord, List.filterMap_cons]
  · norm_num [analyzeClipsAdvanced, buildRecords, singleGoodFile, buildRecord,
      analysisBounds, quantiles4, exBind, fpsTruthy, fpsVal,
      List.filterMap_cons]

/-- C10 (amended): the analyzer returns `None` in exactly the three claimed cases —
missing directory, no matching files, zero successfully analyzed files — and
whenever it returns a value at all, that value is the complete in-memory record
list, one record per successfully analyzed file in enumeration order, with the
error list never part of it; but for some inputs (for example a single analyzed
record) it raises instead of returning. -/
theorem analyzer_return_contract (dirExists : Bool) (files : List FileResult) :
    (analyzeClipsAdvanced dirExists files = .ok none ↔
      (dirExists = false ∨ files = [] ∨ buildRecords files = [])) ∧
    (∀ l, analyzeClipsAdvanced dirExists files = .ok (some l) →
      l = buildRecords files) := by
  unfold analyzeClipsAdvanced
  cases dirExists with
  | false => simp
  | true =>
    simp only [Bool.not_true, Bool.false_eq_true, if_false]
    by_cases hf : files.isEmpty
    · rw [if_pos hf]
      rw [List.isEmpty_iff] at hf
      simp [hf]
    · rw [if_neg hf]
      rw [List.isEmpty_eq_true] at hf
      by_cases hr : (buildRecords files).isEmpty
      · rw [if_pos hr]
        rw [List.isEmpty_iff] at hr
        simp [hf, hr]
      · rw [if_neg hr]
        rw [List.isEmpty_eq_true] at hr
        cases h1 : analysisBounds (buildRecords files) with
        | error e =>
          simp [exBind, h1, hf, hr]
        | ok bounds =>
          cases h2 : outlierDiagnostics (buildRecords files) bounds.1 bounds.2 with
          | error e =>
            simp [exBind, h1, h2, hf, hr]
          | ok d =>
            simp [exBind, h1, h2, hf, hr, eq_comm]

/-- Witness for C10 (amended): a missing directory returns `None`. -/
theorem analyzer_return_contract_witness :
    analyzeClipsAdvanced false [] = .ok none :=
  (analyzer_return_contract false []).1.mpr (Or.inl rfl)

end ClipAnalysis
